import Mathlib

/-!
Shallow embedding of the Sadie assistant middleware kernel
(`src/sadie/core/ollama_client.py`, `module_router.py`, `safety.py`,
`config.py`, and `src/sadie/modules/*.py`), together with theorems
settling the frozen specification claims about tool-call extraction,
action routing, safety validation and the bounded memory store.

Python values flowing through the kernel (parsed JSON, action params,
result dictionaries) are modelled by the `Json` inductive; Python
dictionaries are association lists with unique keys in insertion order.
-/

/-- JSON / Python value model.  Floating-point literals are kept as their
raw lexeme (`jfloat`): no claim depends on float arithmetic, only on
parse success and (for truthiness) on whether the literal is zero. -/
inductive Json where
  | null : Json
  | bool (b : Bool) : Json
  | num (n : Int) : Json
  | jfloat (raw : String) : Json
  | str (s : String) : Json
  | arr (l : List Json) : Json
  | obj (l : List (String × Json)) : Json
deriving Repr

/-- A Python dictionary with string keys, in insertion order. -/
abbrev PyDict := List (String × Json)

/-- Python `d[k]` / `d.get(k)`: first (unique) binding of `k`. -/
def dictGet : PyDict → String → Option Json
  | [], _ => none
  | (k1, v1) :: d, k => if k1 = k then some v1 else dictGet d k

/-- Python `k in d`. -/
def dictHasKey (d : PyDict) (k : String) : Bool :=
  d.any (fun p => p.1 = k)

/-- Python `d[k] = v`: overwrite in place if the key exists (keeping its
position), otherwise append a new binding. -/
def dictSet : PyDict → String → Json → PyDict
  | [], k, v => [(k, v)]
  | (k1, v1) :: d, k, v =>
    if k1 = k then (k, v) :: d else (k1, v1) :: dictSet d k v

/-- Python truthiness of a JSON value (`if not x`).  A float lexeme is
truthy iff it denotes a nonzero value, i.e. has a nonzero mantissa digit
(extreme exponents that underflow in IEEE arithmetic are not modelled). -/
def Json.truthy : Json → Bool
  | .null => false
  | .bool b => b
  | .num n => n != 0
  | .jfloat raw => raw.any (fun c => c.isDigit && c != '0')
  | .str s => s != ""
  | .arr l => !l.isEmpty
  | .obj l => !l.isEmpty

/-- Truthiness of `d.get(k)` where a missing key gives `None` (falsy). -/
def truthyOpt : Option Json → Bool
  | none => false
  | some v => v.truthy

/-- `params.get(k, default)` on a dictionary-valued `Json`.  (Python
raises on `.get` applied to a non-dict; claims only supply dicts, so a
non-dict receiver is modelled as having no keys.) -/
def jgetD (params : Json) (k : String) (dflt : Json) : Json :=
  match params with
  | .obj d => (dictGet d k).getD dflt
  | _ => dflt

/-- `params.get(k)` (missing key gives `None`). -/
def jget (params : Json) (k : String) : Option Json :=
  match params with
  | .obj d => dictGet d k
  | _ => none

/-- Python `s.startswith(p)` (string prefix test, on the character
lists). -/
def startswith (p s : String) : Bool :=
  p.data.isPrefixOf s.data

/-! ## JSON parsing (model of Python `json.loads`)

The extractor (`OllamaClient.extract_tool_calls`) feeds candidate
substrings to `json.loads`.  The parser below follows the JSON grammar
accepted by Python's strict-mode decoder: the six value forms, string
escape sequences (a `\uXXXX` escape becomes the corresponding scalar;
surrogate-pair combination is not modelled), rejection of raw control
characters in strings, object keys as strings, no trailing commas, and
the number grammar `-?(0|[1-9]\d*)(\.\d+)?([eE][+-]?\d+)?`.  Duplicate
object keys keep the last value, as Python dicts do. -/

/-- JSON whitespace characters. -/
def jsonWs (c : Char) : Bool :=
  c = ' ' || c = '\t' || c = '\n' || c = '\r'

/-- Skip leading JSON whitespace. -/
def skipWs (cs : List Char) : List Char := cs.dropWhile jsonWs

/-- Value of a hexadecimal digit. -/
def hexVal (c : Char) : Option Nat :=
  if '0' ≤ c ∧ c ≤ '9' then some (c.toNat - 48)
  else if 'a' ≤ c ∧ c ≤ 'f' then some (c.toNat - 87)
  else if 'A' ≤ c ∧ c ≤ 'F' then some (c.toNat - 55)
  else none

/-- Parse the body of a JSON string (the opening quote already
consumed), returning the decoded string and the remaining input. -/
def parseStringBody : List Char → List Char → Option (String × List Char)
  | [], _ => none
  | c :: rest, acc =>
    if c = '"' then some (String.mk acc.reverse, rest)
    else if c = '\\' then
      match rest with
      | [] => none
      | e :: rest2 =>
        if e = '"' then parseStringBody rest2 ('"' :: acc)
        else if e = '\\' then parseStringBody rest2 ('\\' :: acc)
        else if e = '/' then parseStringBody rest2 ('/' :: acc)
        else if e = 'b' then parseStringBody rest2 ('\x08' :: acc)
        else if e = 'f' then parseStringBody rest2 ('\x0c' :: acc)
        else if e = 'n' then parseStringBody rest2 ('\n' :: acc)
        else if e = 'r' then parseStringBody rest2 ('\x0d' :: acc)
        else if e = 't' then parseStringBody rest2 ('\t' :: acc)
        else if e = 'u' then
          match rest2 with
          | h1 :: h2 :: h3 :: h4 :: rest3 =>
            match hexVal h1, hexVal h2, hexVal h3, hexVal h4 with
            | some a, some b, some c2, some d =>
              parseStringBody rest3 (Char.ofNat (a * 4096 + b * 256 + c2 * 16 + d) :: acc)
            | _, _, _, _ => none
          | _ => none
        else none
    else if c.toNat < 32 then none
    else parseStringBody rest (c :: acc)

/-- Numeric value of a list of decimal digits. -/
def natOfDigits (ds : List Char) : Nat :=
  ds.foldl (fun acc c => acc * 10 + (c.toNat - 48)) 0

/-- Parse a JSON number at the head of the input, per the decoder's
number regex.  Pure integers become `Json.num`; numbers with a
fractional or exponent part keep their lexeme as `Json.jfloat`. -/
def parseNumber (cs : List Char) : Option (Json × List Char) :=
  let neg : Bool := match cs with
    | '-' :: _ => true
    | _ => false
  let cs1 := if neg then cs.drop 1 else cs
  match cs1 with
  | [] => none
  | c :: _ =>
    if !c.isDigit then none
    else
      let intDigits := if c = '0' then ['0'] else cs1.takeWhile Char.isDigit
      let rest1 := cs1.drop intDigits.length
      let fracPair : List Char × List Char :=
        match rest1 with
        | '.' :: t =>
          let ds := t.takeWhile Char.isDigit
          if ds.isEmpty then ([], rest1) else ('.' :: ds, t.drop ds.length)
        | _ => ([], rest1)
      let fracLex := fracPair.1
      let rest2 := fracPair.2
      let expPair : List Char × List Char :=
        match rest2 with
        | e :: t =>
          if e = 'e' ∨ e = 'E' then
            let sgnPair : List Char × List Char :=
              match t with
              | s :: t2 => if s = '+' ∨ s = '-' then ([s], t2) else ([], t)
              | [] => ([], [])
            let ds := sgnPair.2.takeWhile Char.isDigit
            if ds.isEmpty then ([], rest2)
            else (e :: (sgnPair.1 ++ ds), sgnPair.2.drop ds.length)
          else ([], rest2)
        | [] => ([], rest2)
      if fracLex.isEmpty ∧ expPair.1.isEmpty then
        let v : Int := Int.ofNat (natOfDigits intDigits)
        some (.num (if neg then -v else v), rest1)
      else
        let lex := (if neg then ['-'] else []) ++ intDigits ++ fracLex ++ expPair.1
        some (.jfloat (String.mk lex), expPair.2)

/-- Consume an exact literal (for `true`, `false`, `null`). -/
def stripLit (lit : String) (cs : List Char) : Option (List Char) :=
  if lit.data.isPrefixOf cs then some (cs.drop lit.length) else none

mutual

/-- Parse one JSON value at the head of the (whitespace-skipped) input.
The fuel bounds nesting; callers pass more fuel than the input length,
which always suffices since every recursive call consumes input. -/
def parseValue : Nat → List Char → Option (Json × List Char)
  | 0, _ => none
  | f + 1, cs =>
    match cs with
    | [] => none
    | c :: rest =>
      if c = '"' then
        match parseStringBody rest [] with
        | some (s, r) => some (.str s, r)
        | none => none
      else if c = '\x7b' then parseObjBody f (skipWs rest)
      else if c = '[' then parseArrBody f (skipWs rest)
      else if c = 't' then (stripLit "true" cs).map (fun r => (.bool true, r))
      else if c = 'f' then (stripLit "false" cs).map (fun r => (.bool false, r))
      else if c = 'n' then (stripLit "null" cs).map (fun r => (.null, r))
      else if c = '-' ∨ c.isDigit then parseNumber cs
      else none

/-- Parse an object body (input is past `\x7b` and whitespace). -/
def parseObjBody : Nat → List Char → Option (Json × List Char)
  | 0, _ => none
  | f + 1, cs =>
    match cs with
    | '\x7d' :: rest => some (.obj [], rest)
    | _ => parseMembers f cs []

/-- Parse the members of a non-empty object, accumulating bindings with
dict update semantics (a duplicate key overwrites its earlier value). -/
def parseMembers : Nat → List Char → PyDict → Option (Json × List Char)
  | 0, _, _ => none
  | f + 1, cs, acc =>
    match cs with
    | '"' :: rest =>
      match parseStringBody rest [] with
      | none => none
      | some (key, r1) =>
        match skipWs r1 with
        | ':' :: r2 =>
          match parseValue f (skipWs r2) with
          | none => none
          | some (v, r3) =>
            match skipWs r3 with
            | ',' :: r4 => parseMembers f (skipWs r4) (dictSet acc key v)
            | '\x7d' :: r4 => some (.obj (dictSet acc key v), r4)
            | _ => none
        | _ => none
    | _ => none

/-- Parse an array body (input is past `[` and whitespace). -/
def parseArrBody : Nat → List Char → Option (Json × List Char)
  | 0, _ => none
  | f + 1, cs =>
    match cs with
    | ']' :: rest => some (.arr [], rest)
    | _ => parseElems f cs []

/-- Parse the elements of a non-empty array. -/
def parseElems : Nat → List Char → List Json → Option (Json × List Char)
  | 0, _, _ => none
  | f + 1, cs, acc =>
    match parseValue f cs with
    | none => none
    | some (v, r1) =>
      match skipWs r1 with
      | ',' :: r2 => parseElems f (skipWs r2) (acc ++ [v])
      | ']' :: r2 => some (.arr (acc ++ [v]), r2)
      | _ => none

end

/-- Model of Python `json.loads`: parse a complete JSON document,
requiring only whitespace after the value (otherwise `Extra data`). -/
def json_loads (s : String) : Option Json :=
  match parseValue (s.length + 1) (skipWs s.data) with
  | some (v, rest) => if (skipWs rest).isEmpty then some v else none
  | none => none

/-! ## Tool-call extraction (`OllamaClient.extract_tool_calls`) -/

/-- The inner `for` loop of `extract_tool_calls`: starting at a `\x7b`,
scan forward keeping a brace counter (`+1` on `\x7b`, `-1` on `\x7d`,
every occurrence counted, quoted strings NOT skipped, exactly as the
source does), returning the length of the span at which the counter
first returns to zero, or `none` if it never does. -/
def scanDepth : List Char → Int → Nat → Option Nat
  | [], _, _ => none
  | c :: cs, depth, i =>
    if c = '\x7b' then scanDepth cs (depth + 1) (i + 1)
    else if c = '\x7d' then
      if depth - 1 = 0 then some (i + 1) else scanDepth cs (depth - 1) (i + 1)
    else scanDepth cs depth (i + 1)

/-- The scanning loop of `extract_tool_calls`: find the next `\x7b`
(Python `str.find`); if a balanced span follows, try `json.loads` on it
and keep the object when it has an `action` key, then continue after the
span; if the counter never returns to zero, stop (the source `break`s,
returning what was accumulated).  The fuel exceeds the remaining input
length, and every iteration consumes at least one character. -/
def extractLoop : Nat → List Char → List PyDict
  | 0, _ => []
  | f + 1, cs =>
    let rest := cs.dropWhile (fun c => c != '\x7b')
    if rest.isEmpty then []
    else
      match scanDepth rest 0 0 with
      | none => []
      | some n =>
        let hit : List PyDict :=
          match json_loads (String.mk (rest.take n)) with
          | some (.obj d) => if dictHasKey d "action" then [d] else []
          | _ => []
        hit ++ extractLoop f (rest.drop n)

/-- `OllamaClient.extract_tool_calls`: extract structured tool calls
from free-form model output. -/
def extract_tool_calls (text : String) : List PyDict :=
  extractLoop (text.length + 1) text.data

/-! ## Configuration surface (`config.py`, read-only keys the kernel consumes)

`Path.resolve()` is modelled as pure path algebra: splitting on `/`,
making the path absolute against a configured working directory and
normalising `.` and `..` components.  Symlink resolution and
case-insensitive filesystems are filesystem state outside the shallow
embedding; paths in the claims are symlink-free.  The filesystem itself
is modelled as a finite map from resolved paths to file sizes in bytes
(the validator only performs existence and size checks). -/

structure Config where
  blocked_actions : List String
  require_confirmation_for : List String
  forbidden_directories : List String
  safe_directories : List String
  max_file_size_mb : Nat
  email_enabled : Bool
  smtp_server : Option String
  max_history_items : Nat
  home : List String
  cwd : List String
  fs : List (List String × Nat)
deriving Repr

/-- `Config.is_action_blocked`. -/
def is_action_blocked (cfg : Config) (action : String) : Bool :=
  cfg.blocked_actions.contains action

/-- `Config.requires_confirmation`. -/
def requires_confirmation (cfg : Config) (action : String) : Bool :=
  cfg.require_confirmation_for.contains action

/-! ## Path model (for `pathlib.Path(...).resolve()` / `relative_to`) -/

/-- Split a character list on `/` separators. -/
def splitComps : List Char → List Char → List String
  | [], acc => [String.mk acc.reverse]
  | c :: rest, acc =>
    if c = '/' then String.mk acc.reverse :: splitComps rest []
    else splitComps rest (c :: acc)

/-- Split a POSIX path string into components. -/
def splitPath (s : String) : List String :=
  (splitComps s.data []).filter (fun c => c ≠ "")

/-- NormPath `.` and `..` components of an absolute component list. -/
def normPath (comps : List String) : List String :=
  comps.foldl
    (fun acc c =>
      if c = "." then acc
      else if c = ".." then acc.dropLast
      else acc ++ [c]) []

/-- `Path(s).resolve()` as path algebra: absolute paths are normalised,
relative ones are resolved against the configured working directory. -/
def resolvePath (cwd : List String) (s : String) : List String :=
  match s.data with
  | '/' :: _ => normPath (splitPath s)
  | _ => normPath (cwd ++ splitPath s)

/-- `Path(os.path.expanduser("~/" ++ d)).resolve()`: the safe-directory
entries are joined under the home directory and normalised. -/
def safeDirPath (cfg : Config) (d : String) : List String :=
  normPath (cfg.home ++ splitPath d)

/-- Size lookup in the modelled filesystem (`path.exists()` /
`path.stat().st_size`). -/
def fsSize (cfg : Config) (p : List String) : Option Nat :=
  (cfg.fs.find? (fun e => e.1 == p)).map (fun e => e.2)

/-- `params.get(k, '')` for a parameter the source then uses as a
string (`path`, `command`).  A non-string value would raise in Python
(and be caught further up); claims only supply strings, so a non-string
is modelled as the missing-value default. -/
def getStrParam (params : Json) (k : String) : String :=
  match jget params k with
  | some (.str s) => s
  | _ => ""

/-! ## Dangerous-command patterns (`SafetyValidator._validate_system_command`)

The source matches the seven regexes below with `re.search` and
`re.IGNORECASE`.  The matcher interprets exactly the constructs those
patterns use: literals, `\b` word boundaries, `\s+`/`\s*` whitespace,
one character class, one optional character and one two-way group;
case-insensitivity is obtained by lowercasing the command (the patterns
are lowercase). -/

inductive RTok where
  | lit (s : String)
  | wb
  | ws1
  | ws0
  | cls (cs : List Char)
  | optC (c : Char)
  | alt2 (a b : String)

/-- Python `\w`. -/
def isWordChar (c : Char) : Bool := c.isAlphanum || c = '_'

/-- Python `\s` (ASCII): space, tab, newline, carriage return,
vertical tab, form feed. -/
def isSpaceChar (c : Char) : Bool :=
  c = ' ' || c = '\t' || c = '\n' || c = '\x0d' || c = '\x0b' || c = '\x0c'

/-- Last character of a literal, for word-boundary bookkeeping. -/
def lastCharOr (s : String) (prev : Option Char) : Option Char :=
  match s.data.getLast? with
  | some c => some c
  | none => prev

/-- Match a token sequence at the head of `rest`; `prev` is the
character just before the current position (for `\b`). -/
def matchToks : List RTok → Option Char → List Char → Bool
  | [], _, _ => true
  | .wb :: ts, prev, rest =>
    let pw := match prev with
      | some c => isWordChar c
      | none => false
    let nw := match rest with
      | c :: _ => isWordChar c
      | [] => false
    pw != nw && matchToks ts prev rest
  | .lit s :: ts, prev, rest =>
    s.data.isPrefixOf rest && matchToks ts (lastCharOr s prev) (rest.drop s.length)
  | .ws1 :: ts, _, rest =>
    let ws := rest.takeWhile isSpaceChar
    !ws.isEmpty && matchToks ts (some ' ') (rest.drop ws.length)
  | .ws0 :: ts, prev, rest =>
    let ws := rest.takeWhile isSpaceChar
    matchToks ts (if ws.isEmpty then prev else some ' ') (rest.drop ws.length)
  | .cls cs :: ts, _, rest =>
    match rest with
    | c :: r2 => cs.contains c && matchToks ts (some c) r2
    | [] => false
  | .optC c :: ts, prev, rest =>
    match rest with
    | c2 :: r2 => if c2 = c then matchToks ts (some c) r2 else matchToks ts prev rest
    | [] => matchToks ts prev []
  | .alt2 a b :: ts, prev, rest =>
    if a.data.isPrefixOf rest then matchToks ts (lastCharOr a prev) (rest.drop a.length)
    else if b.data.isPrefixOf rest then matchToks ts (lastCharOr b prev) (rest.drop b.length)
    else false

/-- `re.search`: try to match at every position. -/
def searchFrom (ts : List RTok) : Option Char → List Char → Bool
  | prev, [] => matchToks ts prev []
  | prev, c :: cs => matchToks ts prev (c :: cs) || searchFrom ts (some c) cs

/-- The `dangerous_patterns` list, each with its compiled token form. -/
def dangerous_patterns : List (String × List RTok) := [
  ("\\brm\\s+-rf", [.wb, .lit "rm", .ws1, .lit "-rf"]),
  ("\\bformat\\b", [.wb, .lit "format", .wb]),
  ("\\bdel\\s+/[fqs]", [.wb, .lit "del", .ws1, .lit "/", .cls ['f', 'q', 's']]),
  ("\\brd\\s+/s", [.wb, .lit "rd", .ws1, .lit "/s"]),
  (">\\s*\\\\?/dev/", [.lit ">", .ws0, .optC '\\', .lit "/dev/"]),
  ("\\bregedit\\b", [.wb, .lit "regedit", .wb]),
  ("\\breg\\s+(delete|add)", [.wb, .lit "reg", .ws1, .alt2 "delete" "add"])]

/-! ## Policy engine (`SafetyValidator`) -/

/-- `SafetyValidator._validate_file_action`.  The file-size message
renders the size with one (truncated) decimal digit; Python's `:.1f`
rounds, a difference no claim observes. -/
def _validate_file_action (cfg : Config) (action : String) (params : Json) :
    Bool × String :=
  let file_path := getStrParam params "path"
  if file_path = "" then (false, "File path is required")
  else
    let path := resolvePath cfg.cwd file_path
    match cfg.forbidden_directories.find?
        (fun f => (resolvePath cfg.cwd f).isPrefixOf path) with
    | some forbidden => (false, s!"Access to '{forbidden}' directory is forbidden")
    | none =>
      let safe_ok :=
        if cfg.safe_directories.isEmpty then true
        else cfg.safe_directories.any (fun d => (safeDirPath cfg d).isPrefixOf path)
      if !safe_ok then
        let joined := String.intercalate ", " cfg.safe_directories
        (false, s!"File access is only allowed in safe directories: {joined}")
      else
        match fsSize cfg path with
        | some size =>
          if (action = "file_read" ∨ action = "file_write")
              ∧ (size : ℚ) / (1024 * 1024) > (cfg.max_file_size_mb : ℚ) then
            let tenths := size * 10 / (1024 * 1024)
            let whole := tenths / 10
            let tenth := tenths % 10
            let mmb := cfg.max_file_size_mb
            (false, s!"File size ({whole}.{tenth}MB) exceeds maximum allowed size ({mmb}MB)")
          else (true, "File action is safe")
        | none => (true, "File action is safe")

/-- `SafetyValidator._validate_email_action`. -/
def _validate_email_action (cfg : Config) (action : String) (params : Json) :
    Bool × String :=
  if !cfg.email_enabled then (false, "Email module is disabled")
  else if action = "email_send" then
    if !truthyOpt (jget params "recipient") then
      (false, "Recipient email is required")
    else if !truthyOpt (jget params "subject") ∧ !truthyOpt (jget params "body") then
      (false, "Email must have subject or body")
    else (true, "Email action is safe")
  else (true, "Email action is safe")

/-- `SafetyValidator._validate_system_command`. -/
def _validate_system_command (params : Json) : Bool × String :=
  let command := getStrParam params "command"
  if command = "" then (false, "Command is required")
  else
    match dangerous_patterns.find?
        (fun p => searchFrom p.2 none (command.data.map Char.toLower)) with
    | some p =>
      let pat := p.1
      (false, s!"Command contains potentially dangerous operation: {pat}")
    | none => (true, "System command is safe")

/-- `SafetyValidator.validate_action`: the policy verdict
`(is_safe, message)` for one action invocation. -/
def validate_action (cfg : Config) (action : String) (params : Json) :
    Bool × String :=
  if is_action_blocked cfg action then
    (false, s!"Action '{action}' is blocked for safety reasons")
  else if startswith "file_" action then _validate_file_action cfg action params
  else if startswith "email_" action then _validate_email_action cfg action params
  else if action = "system_command" then _validate_system_command params
  else (true, "Action is safe")

/-- The static suggestion table of `SafetyValidator.get_safe_alternative`. -/
def suggestions : List (String × String) := [
  ("file_delete", "Instead of deleting, consider moving the file to a safe location or creating a backup first."),
  ("format_drive", "Formatting drives is not supported. Please use Windows Disk Management for such operations."),
  ("modify_registry", "Registry modifications are not supported for safety. Please use Registry Editor manually if needed."),
  ("system_command", "This command appears unsafe. Please run it manually if you're certain it's safe.")]

/-- `SafetyValidator.get_safe_alternative` (the `reason` argument is
unused in the source as well). -/
def get_safe_alternative (action : String) (reason : String) : String :=
  match suggestions.find? (fun p => p.1 == action) with
  | some p => p.2
  | none => "This action cannot be performed automatically. Please consider doing it manually with appropriate caution."

/-! ## Memory store (`modules/memory.py`) and kernel state

The SQLite tables are modelled as in-memory structures: the
`conversations` table as a list of entries kept in ascending-id
(insertion) order with the autoincrement counter `nextId`, the `context`
table as an association list with unique keys.  `datetime.now()` is the
ambient `now` field.  Side effects performed by the I/O-bound handlers
(file operations, SMTP sends, HTTP calls, OCR, speech) are recorded in
the `effects` trace.  The `role` column is modelled as a string (a
non-string value would be rejected at the SQLite binding boundary). -/

structure ConvEntry where
  id : Nat
  timestamp : String
  role : String
  content : Json
  metadata : Json
deriving Repr

structure SadieState where
  conversations : List ConvEntry
  context : List (String × Json)
  nextId : Nat
  now : String
  effects : List (String × Json)
deriving Repr

/-- The row inserted by `_save_memory`: fresh autoincrement id, current
timestamp, and the `role`/`content`/`metadata` parameters with their
source defaults. -/
def savedEntry (params : Json) (s : SadieState) : ConvEntry :=
  { id := s.nextId, timestamp := s.now,
    role := match jgetD params "role" (.str "user") with
      | .str r => r
      | _ => "user",
    content := jgetD params "content" (.str ""),
    metadata := jgetD params "metadata" (.obj []) }

/-- `MemoryModule._save_memory`: insert a conversation entry, then
delete the oldest surplus rows (ascending id = front of the id-ordered
list) whenever the count exceeds `max_history_items`. -/
def _save_memory (cfg : Config) (params : Json) (s : SadieState) :
    PyDict × SadieState :=
  let content := jgetD params "content" (.str "")
  if !content.truthy then
    ([("success", .bool false), ("error", .str "Content is required")], s)
  else
    let conv := s.conversations ++ [savedEntry params s]
    let count := conv.length
    let conv2 :=
      if count > cfg.max_history_items then conv.drop (count - cfg.max_history_items)
      else conv
    ([("success", .bool true), ("message", .str "Memory saved")],
     { s with conversations := conv2, nextId := s.nextId + 1 })

/-- `MemoryModule._recall_memory`: the most recent `limit` entries
(optionally filtered by role), reversed into chronological order.  A
negative SQL `LIMIT` means no limit. -/
def _recall_memory (params : Json) (s : SadieState) : PyDict × SadieState :=
  let limit : Int := match jget params "limit" with
    | some (.num n) => n
    | _ => 10
  let roleFilter := jget params "role"
  let roleStr := getStrParam params "role"
  let filtered :=
    if truthyOpt roleFilter then s.conversations.filter (fun e => e.role == roleStr)
    else s.conversations
  let desc := filtered.reverse
  let rows := if limit < 0 then desc else desc.take limit.toNat
  let history := rows.reverse.map (fun e =>
    Json.obj [("timestamp", .str e.timestamp), ("role", .str e.role),
              ("content", e.content), ("metadata", e.metadata)])
  ([("success", .bool true), ("history", .arr history),
    ("count", .num history.length)], s)

/-- `MemoryModule._get_context`. -/
def _get_context (params : Json) (s : SadieState) : PyDict × SadieState :=
  if !truthyOpt (jget params "key") then
    ([("success", .bool false), ("error", .str "Key is required")], s)
  else
    let k := getStrParam params "key"
    match s.context.find? (fun p => p.1 == k) with
    | some p => ([("success", .bool true), ("key", .str k), ("value", p.2)], s)
    | none => ([("success", .bool false), ("error", .str s!"Context key '{k}' not found")], s)

/-- `MemoryModule._set_context`: upsert. -/
def _set_context (params : Json) (s : SadieState) : PyDict × SadieState :=
  if !truthyOpt (jget params "key") then
    ([("success", .bool false), ("error", .str "Key is required")], s)
  else
    let k := getStrParam params "key"
    let v := (jget params "value").getD .null
    ([("success", .bool true), ("message", .str s!"Context '{k}' saved")],
     { s with context := dictSet s.context k v })

/-- `MemoryModule._clear_memory`. -/
def _clear_memory (params : Json) (s : SadieState) : PyDict × SadieState :=
  let clear_context := truthyOpt (jget params "clear_context")
  ([("success", .bool true), ("message", .str "Memory cleared")],
   { s with conversations := [],
            context := if clear_context then [] else s.context })

/-- Uniform handler capability: `execute(action, params)` over the
kernel state; `Except.error` models an exception escaping the handler. -/
def ModuleExec : Type :=
  String → Json → SadieState → Except String PyDict × SadieState

/-- `MemoryModule.execute`: dispatch over the five memory actions.  The
embedded handlers are total, so no exception path arises here. -/
def memoryExecute (cfg : Config) : ModuleExec := fun action params s =>
  if action = "memory_save" then
    let r := _save_memory cfg params s
    (.ok r.1, r.2)
  else if action = "memory_recall" then
    let r := _recall_memory params s
    (.ok r.1, r.2)
  else if action = "memory_get_context" then
    let r := _get_context params s
    (.ok r.1, r.2)
  else if action = "memory_set_context" then
    let r := _set_context params s
    (.ok r.1, r.2)
  else if action = "memory_clear" then
    let r := _clear_memory params s
    (.ok r.1, r.2)
  else
    (.ok [("success", .bool false),
          ("error", .str s!"Unknown memory action: {action}")], s)

/-- The file actions dispatched by `FileActionsModule.execute`. -/
def fileActionNames : List String :=
  ["file_read", "file_write", "file_delete", "file_move", "file_copy",
   "file_list", "file_info"]

/-- `FileActionsModule.execute`: validate, then check the confirmation
set, then dispatch.  The per-action filesystem bodies are I/O-bound;
a performed operation is recorded in the effect trace and its payload
summarised as a success result. -/
def fileExecute (cfg : Config) : ModuleExec := fun action params s =>
  let v := validate_action cfg action params
  if !v.1 then
    (.ok [("success", .bool false), ("error", .str v.2),
          ("suggestion", .str (get_safe_alternative action v.2))], s)
  else if requires_confirmation cfg action then
    (.ok [("success", .bool false), ("requires_confirmation", .bool true),
          ("message", .str s!"Please confirm: {action}"), ("params", params)], s)
  else if fileActionNames.contains action then
    (.ok [("success", .bool true)],
     { s with effects := s.effects ++ [(action, params)] })
  else
    (.ok [("success", .bool false),
          ("error", .str s!"Unknown file action: {action}")], s)

/-- `EmailModule._create_draft` (pure formatting). -/
def _create_draft (params : Json) : PyDict :=
  let recipient := getStrParam params "recipient"
  let subject := getStrParam params "subject"
  let body := getStrParam params "body"
  let draft := s!"To: {recipient}\nSubject: {subject}\n\n{body}"
  [("success", .bool true), ("draft", .str draft),
   ("message", .str "Email draft created. Review before sending.")]

/-- `EmailModule._send_email`: configuration checks are embedded; the
SMTP transport is abstracted as a recorded effect with a success
result. -/
def _send_email (cfg : Config) (params : Json) (s : SadieState) :
    Except String PyDict × SadieState :=
  if !cfg.email_enabled then
    (.ok [("success", .bool false),
          ("error", .str "Email module is disabled. Please enable it in config.yaml")], s)
  else
    let smtpOk := match cfg.smtp_server with
      | some srv => srv ≠ ""
      | none => false
    if !smtpOk then
      (.ok [("success", .bool false),
            ("error", .str "SMTP server not configured. Please configure email settings in config.yaml")], s)
    else if !truthyOpt (jget params "sender") ∨ !truthyOpt (jget params "recipient") then
      (.ok [("success", .bool false),
            ("error", .str "Sender and recipient email addresses are required")], s)
    else
      let recipient := getStrParam params "recipient"
      (.ok [("success", .bool true), ("message", .str s!"Email sent to {recipient}")],
       { s with effects := s.effects ++ [("email_send", params)] })

/-- `EmailModule.execute`. -/
def emailExecute (cfg : Config) : ModuleExec := fun action params s =>
  let v := validate_action cfg action params
  if !v.1 then
    (.ok [("success", .bool false), ("error", .str v.2)], s)
  else if requires_confirmation cfg action then
    (.ok [("success", .bool false), ("requires_confirmation", .bool true),
          ("message", .str s!"Please confirm: {action}"), ("params", params)], s)
  else if action = "email_send" then _send_email cfg params s
  else if action = "email_draft" then (.ok (_create_draft params), s)
  else
    (.ok [("success", .bool false),
          ("error", .str s!"Unknown email action: {action}")], s)

/-- Actions of the vision, voice, API and planning modules. -/
def visionActionNames : List String := ["image_describe", "image_ocr", "image_analyze"]

def voiceActionNames : List String := ["voice_transcribe", "voice_record"]

def apiActionNames : List String := ["api_get", "api_post"]

def planningActionNames : List String := ["plan_task", "plan_validate"]

/-- `execute` of the vision/voice/API/planning modules: the dispatch
table and unknown-action error are embedded; the per-action bodies are
bound to external libraries (LLaVA/OCR, Whisper, HTTP, model calls) and
are abstracted as recorded effects with a success result.  None of these
modules consults the safety validator or the confirmation set. -/
def externalExecute (kind : String) (names : List String) : ModuleExec :=
  fun action params s =>
    if names.contains action then
      (.ok [("success", .bool true)],
       { s with effects := s.effects ++ [(action, params)] })
    else
      (.ok [("success", .bool false),
            ("error", .str s!"Unknown {kind} action: {action}")], s)

/-! ## Router (`module_router.py`) -/

/-- The `action_map` prefix table, in source (insertion) order. -/
def action_map : List (String × String) :=
  [("file_", "file"), ("email_", "email"), ("image_", "vision"),
   ("voice_", "voice"), ("api_", "api"), ("memory_", "memory"),
   ("plan_", "planning")]

/-- The prefix-resolution loop at the top of `ModuleRouter.route`. -/
def findModuleName (action : String) : Option String :=
  (action_map.find? (fun p => startswith p.1 action)).map (fun p => p.2)

/-- `ModuleRouter.route`, parameterised by the `self.modules` table:
resolve the handler by prefix, dispatch, stamp `module` and `action`
onto a returned dictionary, and convert a handler exception into a
failure result. -/
def route (modules : String → Option ModuleExec) (action : String)
    (params : Json) (s : SadieState) : PyDict × SadieState :=
  match findModuleName action with
  | none =>
    ([("success", .bool false), ("error", .str s!"Unknown action: {action}"),
      ("suggestion", .str "Available action types: file_*, email_*, image_*, voice_*, api_*, memory_*, plan_*")], s)
  | some module_name =>
    match modules module_name with
    | none =>
      ([("success", .bool false),
        ("error", .str s!"Module '{module_name}' not found")], s)
    | some m =>
      match m action params s with
      | (.ok result, s2) =>
        (dictSet (dictSet result "module" (.str module_name)) "action" (.str action), s2)
      | (.error e, s2) =>
        ([("success", .bool false),
          ("error", .str s!"Module execution failed: {e}"),
          ("module", .str module_name), ("action", .str action)], s2)

/-- The `self.modules` table built by `ModuleRouter.__init__`. -/
def sadieModules (cfg : Config) : String → Option ModuleExec := fun n =>
  if n = "file" then some (fileExecute cfg)
  else if n = "email" then some (emailExecute cfg)
  else if n = "vision" then some (externalExecute "vision" visionActionNames)
  else if n = "voice" then some (externalExecute "voice" voiceActionNames)
  else if n = "api" then some (externalExecute "API" apiActionNames)
  else if n = "memory" then some (memoryExecute cfg)
  else if n = "planning" then some (externalExecute "planning" planningActionNames)
  else none

/-- `ModuleRouter.process_tool_calls`: apply `route` to each tool call
in order.  A falsy `action` value (missing key, `None`, empty string,
or any other falsy JSON value) produces the synthetic failure result in
place.  A truthy non-string `action` raises `AttributeError` inside
`route`'s `startswith` loop, aborting the whole batch — modelled as
`Except.error`. -/
def process_tool_calls (modules : String → Option ModuleExec) :
    List PyDict → SadieState → Except String (List PyDict × SadieState)
  | [], s => .ok ([], s)
  | tc :: rest, s =>
    let actionV := dictGet tc "action"
    if !truthyOpt actionV then
      match process_tool_calls modules rest s with
      | .ok (rs, s2) =>
        .ok (([("success", .bool false),
               ("error", .str "Tool call missing 'action' field")]) :: rs, s2)
      | .error e => .error e
    else
      match actionV with
      | some (.str a) =>
        let params := (dictGet tc "params").getD (.obj [])
        let r := route modules a params s
        match process_tool_calls modules rest r.2 with
        | .ok (rs, s3) => .ok (r.1 :: rs, s3)
        | .error e => .error e
      | _ => .error "AttributeError: the action value is not a string"

/-! ## Well-formedness of the memory store and fixtures

`MemWF` is the reachable-state invariant of the conversations table:
rows are kept in strictly ascending id order, below the autoincrement
counter.  Every state the module constructs satisfies it, and
`_save_memory` preserves it, so properties proved from it apply to every
sequence of operations. -/

/-- Invariant of the modelled `conversations` table. -/
def MemWF (s : SadieState) : Prop :=
  s.conversations.Pairwise (fun a b => a.id < b.id)
    ∧ ∀ e ∈ s.conversations, e.id < s.nextId

/-- Domain of `process_tool_calls` requests whose `action` value does
not crash the Python prefix loop: the value is either falsy (synthetic
failure) or a string (routable); this is the shape of an
`ActionRequest`. -/
def actionFieldOk (tc : PyDict) : Prop :=
  truthyOpt (dictGet tc "action") = false
    ∨ ∃ a : String, dictGet tc "action" = some (Json.str a)

/-- A baseline configuration used by concrete instantiations. -/
def baseConfig : Config :=
  { blocked_actions := [], require_confirmation_for := [],
    forbidden_directories := [], safe_directories := [],
    max_file_size_mb := 100, email_enabled := false, smtp_server := none,
    max_history_items := 1000, home := ["home", "user"],
    cwd := ["home", "user"], fs := [] }

/-- An empty kernel state. -/
def emptyState : SadieState :=
  { conversations := [], context := [], nextId := 1, now := "t0", effects := [] }

/-- A concrete conversation entry. -/
def mkEntry (i : Nat) (c : String) : ConvEntry :=
  { id := i, timestamp := "t", role := "user", content := .str c,
    metadata := .obj [] }

/-- A state holding one conversation entry. -/
def stateOne : SadieState :=
  { emptyState with conversations := [mkEntry 1 "a"], nextId := 2 }

/-- A state holding two conversation entries. -/
def stateTwo : SadieState :=
  { emptyState with conversations := [mkEntry 1 "a", mkEntry 2 "b"], nextId := 3 }

/-- A three-request batch: a context write, a request with no `action`
field, and a planning request. -/
def tcsEx : List PyDict :=
  [[("action", .str "memory_set_context"),
    ("params", .obj [("key", .str "k"), ("value", .num 1)])],
   [("params", .obj [])],
   [("action", .str "plan_task")]]

/-! ## Helper lemmas about dictionaries -/

theorem dictGet_dictSet_self (d : PyDict) (k : String) (v : Json) :
    dictGet (dictSet d k v) k = some v := by
  induction d with
  | nil => simp [dictSet, dictGet]
  | cons p d ih =>
    by_cases h : p.1 = k
    · simp [dictSet, dictGet, h]
    · simp [dictSet, dictGet, h, ih]

theorem dictGet_dictSet_of_ne (d : PyDict) (k k2 : String) (v : Json)
    (h : k ≠ k2) : dictGet (dictSet d k v) k2 = dictGet d k2 := by
  induction d with
  | nil => simp [dictSet, dictGet, h]
  | cons p d ih =>
    by_cases hp : p.1 = k
    · simp [dictSet, dictGet, hp, h]
    · simp [dictSet, dictGet, hp, ih]

/-! ## Claim theorems -/

/-- Claim C3 (code bug): on the input `\x7b"action":"x","params":\x7b"note":"a \x7b b"\x7d\x7d`
the brace-depth scan counts the `\x7b` inside the quoted string literal,
the counter never returns to zero, the loop breaks, and
`extract_tool_calls` returns zero requests — the spec requires a
string-literal-aware scan returning exactly one request. -/
theorem c3_nested_brace_in_string_yields_no_request :
    extract_tool_calls
      "\x7b\"action\":\"x\",\"params\":\x7b\"note\":\"a \x7b b\"\x7d\x7d" = [] := by
  rfl

/-- Claim C4 (counterexample): `extract_tool_calls` on
`\x7b"action": null\x7d` returns one object whose `action` field is
null — the code tests key presence only, so the claimed non-null
guarantee fails. -/
theorem c4_counterexample :
    extract_tool_calls "\x7b\"action\": null\x7d" = [[("action", Json.null)]]
      ∧ dictGet [("action", Json.null)] "action" = some Json.null := by
  exact ⟨rfl, rfl⟩

/-- Claim C8 (counterexample): for an action matching no configured
prefix, `route` returns the unknown-action failure dictionary, which
carries neither a `module` nor an `action` field. -/
theorem c8_counterexample :
    dictGet (route (sadieModules baseConfig) "bogus" (Json.obj []) emptyState).1
        "module" = none
      ∧ dictGet (route (sadieModules baseConfig) "bogus" (Json.obj []) emptyState).1
        "action" = none := by
  exact ⟨rfl, rfl⟩

/-- Claim C1 (counterexample): with `memory_save` on the configured
block-list, validation denies the action, yet `route` never consults the
validator: it dispatches to the memory handler, which inserts the entry
and reports success.  This falsifies “route runs the Policy Engine's
validation before dispatching … whenever validation denies the action,
route returns success=false … without invoking any handler”. -/
theorem c1_counterexample :
    (validate_action { baseConfig with blocked_actions := ["memory_save"] }
        "memory_save" (Json.obj [("content", Json.str "hi")])).1 = false
      ∧ dictGet (route (sadieModules { baseConfig with blocked_actions := ["memory_save"] })
          "memory_save" (Json.obj [("content", Json.str "hi")]) emptyState).1
          "success" = some (Json.bool true)
      ∧ (route (sadieModules { baseConfig with blocked_actions := ["memory_save"] })
          "memory_save" (Json.obj [("content", Json.str "hi")]) emptyState).2.conversations.length = 1 := by
  exact ⟨rfl, rfl, rfl⟩

/-- Claim C2 (counterexample): with `memory_clear` in the configured
requires-confirmation set, `route` executes the memory handler — the
conversation log is cleared and the result reports success with no
`requires_confirmation` field.  Only the file and email handlers consult
the confirmation set. -/
theorem c2_counterexample :
    requires_confirmation { baseConfig with require_confirmation_for := ["memory_clear"] }
        "memory_clear" = true
      ∧ dictGet (route (sadieModules { baseConfig with require_confirmation_for := ["memory_clear"] })
          "memory_clear" (Json.obj []) stateOne).1 "requires_confirmation" = none
      ∧ dictGet (route (sadieModules { baseConfig with require_confirmation_for := ["memory_clear"] })
          "memory_clear" (Json.obj []) stateOne).1 "success" = some (Json.bool true)
      ∧ (route (sadieModules { baseConfig with require_confirmation_for := ["memory_clear"] })
          "memory_clear" (Json.obj []) stateOne).2.conversations = [] := by
  exact ⟨rfl, rfl, rfl, rfl⟩

/-- Helper for C4: every dictionary produced by the extraction loop was
admitted through the `action`-key membership guard. -/
theorem extractLoop_hasKey (f : Nat) (cs : List Char) (d : PyDict)
    (hd : d ∈ extractLoop f cs) : dictHasKey d "action" = true := by
  induction f generalizing cs with
  | zero => simp [extractLoop] at hd
  | succ f ih =>
    simp only [extractLoop] at hd
    split at hd
    · simp at hd
    · split at hd
      · simp at hd
      · rw [List.mem_append] at hd
        rcases hd with h1 | h1
        · split at h1
          · split at h1
            · rename_i hkey
              rw [List.mem_singleton.mp h1]
              exact hkey
            · simp at h1
          · simp at h1
        · exact ih _ h1

/-- Claim C4 (amended): extraction is a total function of its input, and
every object it returns contains an `action` field — whose value may be
null, since the source checks key presence only. -/
theorem c4_amended (text : String) (d : PyDict)
    (hd : d ∈ extract_tool_calls text) : dictHasKey d "action" = true :=
  extractLoop_hasKey _ _ _ hd

/-- Claim C4 (witness): the amended theorem applied to a concrete
extraction. -/
theorem c4_witness :
    ([("action", Json.str "b")] ∈ extract_tool_calls "\x7b\"action\":\"b\"\x7d")
      ∧ dictHasKey [("action", Json.str "b")] "action" = true := by
  have hm : extract_tool_calls "\x7b\"action\":\"b\"\x7d"
      = [[("action", Json.str "b")]] := rfl
  have hmem : [("action", Json.str "b")] ∈ extract_tool_calls "\x7b\"action\":\"b\"\x7d" := by
    rw [hm]; exact List.mem_singleton.mpr rfl
  exact ⟨hmem, c4_amended _ _ hmem⟩

/-- Claim C10: `_save_memory` with missing or empty (falsy) `content`
returns the `Content is required` failure and leaves the state — both
tables, the id counter, everything — unchanged: no insertion, no
eviction. -/
theorem c10_empty_content_no_write (cfg : Config) (params : Json) (s : SadieState)
    (h : (jgetD params "content" (Json.str "")).truthy = false) :
    _save_memory cfg params s =
      ([("success", Json.bool false), ("error", Json.str "Content is required")], s) := by
  simp [_save_memory, h]

/-- Claim C10 (witness): concrete empty-params call. -/
theorem c10_witness :
    (jgetD (Json.obj []) "content" (Json.str "")).truthy = false
      ∧ _save_memory baseConfig (Json.obj []) emptyState =
          ([("success", Json.bool false), ("error", Json.str "Content is required")],
           emptyState) :=
  ⟨rfl, c10_empty_content_no_write baseConfig (Json.obj []) emptyState rfl⟩

/-- Claim C1 (amended): policy validation is not run by `route` itself;
the file handler runs it at the top of its `execute`.  For every
file-prefixed action that validation denies, `route` returns a result
with `success=false`, `error` equal to the denial reason and the
suggested safer alternative under the `suggestion` key, stamped with
module and action, and the state (in particular the effect trace) is
unchanged — the file operation is not performed.  Handlers other than
file and email are dispatched without any validation. -/
theorem c1_amended (cfg : Config) (action : String) (params : Json)
    (s : SadieState) (msg : String)
    (hpfx : startswith "file_" action = true)
    (hval : validate_action cfg action params = (false, msg)) :
    route (sadieModules cfg) action params s =
      ([("success", Json.bool false), ("error", Json.str msg),
        ("suggestion", Json.str (get_safe_alternative action msg)),
        ("module", Json.str "file"), ("action", Json.str action)], s) := by
  have hfind : findModuleName action = some "file" := by
    simp [findModuleName, action_map, List.find?, hpfx]
  simp [route, hfind, sadieModules, fileExecute, hval, dictSet]

/-- Claim C1 (witness): a denied concrete file action. -/
theorem c1_witness :
    startswith "file_" "file_read" = true
      ∧ validate_action { baseConfig with forbidden_directories := ["/etc"] }
          "file_read" (Json.obj [("path", Json.str "/etc/passwd")]) =
          (false, "Access to '/etc' directory is forbidden")
      ∧ route (sadieModules { baseConfig with forbidden_directories := ["/etc"] })
          "file_read" (Json.obj [("path", Json.str "/etc/passwd")]) emptyState =
          ([("success", Json.bool false),
            ("error", Json.str "Access to '/etc' directory is forbidden"),
            ("suggestion", Json.str (get_safe_alternative "file_read"
              "Access to '/etc' directory is forbidden")),
            ("module", Json.str "file"), ("action", Json.str "file_read")],
           emptyState) :=
  ⟨rfl, rfl, c1_amended _ _ _ _ _ rfl rfl⟩

/-- Claim C2 (amended): only the file and email handlers consult the
requires-confirmation set (inside their `execute`, after validation
passes).  For an action routed to one of them that validation allows and
that is in the set, `route` returns `success=false` with
`requires_confirmation=true`, the confirmation message and the original
params echoed back, stamped with module and action, and the state is
unchanged — the underlying operation is not performed.  Actions routed
to any other handler ignore the confirmation set. -/
theorem c2_amended (cfg : Config) (action : String) (params : Json)
    (s : SadieState) (msg : String)
    (hconf : requires_confirmation cfg action = true)
    (hval : validate_action cfg action params = (true, msg)) :
    (findModuleName action = some "file" →
      route (sadieModules cfg) action params s =
        ([("success", Json.bool false), ("requires_confirmation", Json.bool true),
          ("message", Json.str s!"Please confirm: {action}"), ("params", params),
          ("module", Json.str "file"), ("action", Json.str action)], s))
    ∧ (findModuleName action = some "email" →
      route (sadieModules cfg) action params s =
        ([("success", Json.bool false), ("requires_confirmation", Json.bool true),
          ("message", Json.str s!"Please confirm: {action}"), ("params", params),
          ("module", Json.str "email"), ("action", Json.str action)], s)) := by
  constructor <;> intro hfind <;>
    simp [route, hfind, sadieModules, fileExecute, emailExecute, hval, hconf, dictSet]

/-- Claim C2 (witness): a concrete confirmation-set file action. -/
theorem c2_witness :
    requires_confirmation
        { baseConfig with require_confirmation_for := ["file_delete"] } "file_delete" = true
      ∧ route (sadieModules { baseConfig with require_confirmation_for := ["file_delete"] })
          "file_delete" (Json.obj [("path", Json.str "/tmp/x")]) emptyState =
          ([("success", Json.bool false), ("requires_confirmation", Json.bool true),
            ("message", Json.str "Please confirm: file_delete"),
            ("params", Json.obj [("path", Json.str "/tmp/x")]),
            ("module", Json.str "file"), ("action", Json.str "file_delete")],
           emptyState) :=
  ⟨rfl, (c2_amended { baseConfig with require_confirmation_for := ["file_delete"] }
    "file_delete" (Json.obj [("path", Json.str "/tmp/x")]) emptyState
    "File action is safe" rfl rfl).1 rfl⟩

/-- Claim C8 (amended): for every action that resolves to a handler in
the modules table, the result returned by `route` — whether the handler
returned normally or raised — carries `module` (the handler name) and
`action` (the action it was given).  The unknown-prefix failure result
carries neither (see the counterexample). -/
theorem c8_amended (modules : String → Option ModuleExec) (action : String)
    (params : Json) (s : SadieState) (mn : String) (m : ModuleExec)
    (hfind : findModuleName action = some mn) (hmod : modules mn = some m) :
    dictGet (route modules action params s).1 "module" = some (Json.str mn)
      ∧ dictGet (route modules action params s).1 "action" = some (Json.str action) := by
  rcases hexec : m action params s with ⟨res, s2⟩
  cases res with
  | ok r =>
    have hr : (route modules action params s).1
        = dictSet (dictSet r "module" (Json.str mn)) "action" (Json.str action) := by
      simp [route, hfind, hmod, hexec]
    rw [hr]
    constructor
    · rw [dictGet_dictSet_of_ne _ "action" "module" _ (by decide)]
      exact dictGet_dictSet_self _ _ _
    · exact dictGet_dictSet_self _ _ _
  | error e =>
    have hr : (route modules action params s).1
        = [("success", Json.bool false),
           ("error", Json.str s!"Module execution failed: {e}"),
           ("module", Json.str mn), ("action", Json.str action)] := by
      simp [route, hfind, hmod, hexec]
    rw [hr]
    exact ⟨rfl, rfl⟩

/-- Claim C8 (witness): a concrete routed action is stamped. -/
theorem c8_witness :
    findModuleName "memory_recall" = some "memory"
      ∧ dictGet (route (sadieModules baseConfig) "memory_recall" (Json.obj [])
          emptyState).1 "module" = some (Json.str "memory")
      ∧ dictGet (route (sadieModules baseConfig) "memory_recall" (Json.obj [])
          emptyState).1 "action" = some (Json.str "memory_recall") := by
  refine ⟨rfl, ?_, ?_⟩
  · exact (c8_amended (sadieModules baseConfig) "memory_recall" (Json.obj [])
      emptyState "memory" (memoryExecute baseConfig) rfl rfl).1
  · exact (c8_amended (sadieModules baseConfig) "memory_recall" (Json.obj [])
      emptyState "memory" (memoryExecute baseConfig) rfl rfl).2

/-- Claim C6: a file-prefixed action whose resolved path has a
configured forbidden directory's resolved form as an ancestor (component
prefix) is denied; and the prefix-not-ancestor case `/home/userx` under
forbidden `/home/user` is not denied — validation allows it outright. -/
theorem c6_forbidden_dir_containment :
    (∀ (cfg : Config) (action : String) (params : Json) (p fb : String),
      startswith "file_" action = true →
      jget params "path" = some (Json.str p) →
      fb ∈ cfg.forbidden_directories →
      (resolvePath cfg.cwd fb).isPrefixOf (resolvePath cfg.cwd p) = true →
      (validate_action cfg action params).1 = false)
    ∧ validate_action { baseConfig with forbidden_directories := ["/home/user"] }
        "file_read" (Json.obj [("path", Json.str "/home/userx/file.txt")]) =
        (true, "File action is safe") := by
  constructor
  · intro cfg action params p fb hpfx hpath hfb hcont
    have hgp : getStrParam params "path" = p := by
      simp [getStrParam, hpath]
    by_cases hb : is_action_blocked cfg action = true
    · simp [validate_action, hb]
    · simp only [validate_action, hb, hpfx, Bool.false_eq_true, if_false, if_true]
      by_cases hp : p = ""
      · simp [_validate_file_action, hgp, hp]
      · cases hfind : cfg.forbidden_directories.find?
            (fun f => (resolvePath cfg.cwd f).isPrefixOf (resolvePath cfg.cwd p)) with
        | some f => simp [_validate_file_action, hgp, hp, hfind]
        | none =>
          exact absurd hcont (by simpa using List.find?_eq_none.mp hfind fb hfb)
  · rfl

/-- Claim C6 (witness): the universal part applied to the spec's
concrete denied path. -/
theorem c6_witness :
    ("/home/user" ∈ ({ baseConfig with forbidden_directories := ["/home/user"] } : Config).forbidden_directories)
      ∧ (validate_action { baseConfig with forbidden_directories := ["/home/user"] }
          "file_read" (Json.obj [("path", Json.str "/home/user/secret.txt")])).1 = false := by
  refine ⟨List.mem_singleton.mpr rfl, ?_⟩
  exact c6_forbidden_dir_containment.1
    { baseConfig with forbidden_directories := ["/home/user"] }
    "file_read" (Json.obj [("path", Json.str "/home/user/secret.txt")])
    "/home/user/secret.txt" "/home/user" rfl rfl
    (List.mem_singleton.mpr rfl) rfl

/-- Claim C7: with a non-empty safe-directory allow-list, validation
allows a file-prefixed action only if the resolved target path is
contained in (a descendant of, or equal to) the resolved form of at
least one configured safe directory. -/
theorem c7_safe_dirs_allowlist (cfg : Config) (action : String) (params : Json)
    (p : String)
    (hpfx : startswith "file_" action = true)
    (hpath : jget params "path" = some (Json.str p))
    (hsafe : cfg.safe_directories ≠ [])
    (hok : (validate_action cfg action params).1 = true) :
    ∃ d ∈ cfg.safe_directories,
      (safeDirPath cfg d).isPrefixOf (resolvePath cfg.cwd p) = true := by
  have hgp : getStrParam params "path" = p := by
    simp [getStrParam, hpath]
  by_cases hb : is_action_blocked cfg action = true
  · simp [validate_action, hb] at hok
  · simp only [validate_action, hb, hpfx, Bool.false_eq_true, if_false, if_true] at hok
    by_cases hp : p = ""
    · simp [_validate_file_action, hgp, hp] at hok
    · cases hfind : cfg.forbidden_directories.find?
          (fun f => (resolvePath cfg.cwd f).isPrefixOf (resolvePath cfg.cwd p)) with
      | some f => simp [_validate_file_action, hgp, hp, hfind] at hok
      | none =>
        have hne : cfg.safe_directories.isEmpty = false := by
          cases hl : cfg.safe_directories with
          | nil => exact absurd hl hsafe
          | cons a l => rfl
        by_cases hany : cfg.safe_directories.any
            (fun d => (safeDirPath cfg d).isPrefixOf (resolvePath cfg.cwd p)) = true
        · exact List.any_eq_true.mp hany
        · simp [_validate_file_action, hgp, hp, hfind, hne, hany] at hok

/-- Claim C7 (witness): a concrete allowed path inside a safe
directory. -/
theorem c7_witness :
    (validate_action { baseConfig with safe_directories := ["Documents", "Downloads"] }
        "file_read" (Json.obj [("path", Json.str "/home/user/Documents/a.txt")])).1 = true
      ∧ ∃ d ∈ ({ baseConfig with safe_directories := ["Documents", "Downloads"] } : Config).safe_directories,
          (safeDirPath { baseConfig with safe_directories := ["Documents", "Downloads"] } d).isPrefixOf
            (resolvePath ({ baseConfig with safe_directories := ["Documents", "Downloads"] } : Config).cwd
              "/home/user/Documents/a.txt") = true := by
  refine ⟨rfl, ?_⟩
  exact c7_safe_dirs_allowlist
    { baseConfig with safe_directories := ["Documents", "Downloads"] }
    "file_read" (Json.obj [("path", Json.str "/home/user/Documents/a.txt")])
    "/home/user/Documents/a.txt" rfl rfl (by simp [baseConfig]) rfl

/-- Claim C5: a `memory_save` append with non-empty (truthy) content
always leaves the conversation log at or below the configured maximum;
whenever the insertion makes the count exceed the maximum, exactly the
surplus oldest entries (those with the smallest ids, the front of the
id-ordered table) are deleted, the count afterwards equals exactly the
maximum, and every deleted entry has a smaller id than every kept one
(FIFO).  The table invariant `MemWF` is preserved, so this holds after
each append of every sequence of appends. -/
theorem c5_retention_fifo (cfg : Config) (params : Json) (s : SadieState)
    (r : PyDict) (s2 : SadieState) (hwf : MemWF s)
    (hcontent : (jgetD params "content" (Json.str "")).truthy = true)
    (hrun : _save_memory cfg params s = (r, s2)) :
    r = [("success", Json.bool true), ("message", Json.str "Memory saved")]
      ∧ MemWF s2
      ∧ s2.conversations.length ≤ cfg.max_history_items
      ∧ (s.conversations.length + 1 > cfg.max_history_items →
          s2.conversations.length = cfg.max_history_items
            ∧ s2.conversations =
                (s.conversations ++ [savedEntry params s]).drop
                  (s.conversations.length + 1 - cfg.max_history_items)
            ∧ ∀ e ∈ (s.conversations ++ [savedEntry params s]).take
                  (s.conversations.length + 1 - cfg.max_history_items),
                ∀ e2 ∈ s2.conversations, e.id < e2.id) := by
  simp only [_save_memory, hcontent, Bool.not_true, Bool.false_eq_true, if_false,
    List.length_append, List.length_singleton] at hrun
  injection hrun with hr hs2
  subst hr
  subst hs2
  have hPair : (s.conversations ++ [savedEntry params s]).Pairwise
      (fun a b => a.id < b.id) := by
    rw [List.pairwise_append]
    refine ⟨hwf.1, List.pairwise_singleton _ _, ?_⟩
    intro a ha b hb
    rw [List.mem_singleton.mp hb]
    exact hwf.2 a ha
  have hmemBound : ∀ e ∈ s.conversations ++ [savedEntry params s],
      e.id < s.nextId + 1 := by
    intro e he
    rcases List.mem_append.mp he with h1 | h1
    · exact Nat.lt_succ_of_lt (hwf.2 e h1)
    · rw [List.mem_singleton.mp h1]
      exact Nat.lt_succ_self _
  by_cases hgt : s.conversations.length + 1 > cfg.max_history_items
  · dsimp only
    rw [if_pos hgt]
    refine ⟨rfl, ⟨?_, ?_⟩, ?_, fun _ => ⟨?_, rfl, ?_⟩⟩
    · exact List.Pairwise.sublist (List.drop_sublist _ _) hPair
    · intro e he
      exact hmemBound e ((List.drop_sublist _ _).subset he)
    · rw [List.length_drop, List.length_append, List.length_singleton]
      omega
    · rw [List.length_drop, List.length_append, List.length_singleton]
      omega
    · intro e he e2 he2
      have hPair2 := hPair
      rw [← List.take_append_drop
        (s.conversations.length + 1 - cfg.max_history_items)
        (s.conversations ++ [savedEntry params s])] at hPair2
      exact (List.pairwise_append.mp hPair2).2.2 e he e2 he2
  · dsimp only
    rw [if_neg hgt]
    refine ⟨rfl, ⟨hPair, ?_⟩, ?_, fun h => absurd h hgt⟩
    · intro e he
      exact hmemBound e he
    · rw [List.length_append, List.length_singleton]
      omega

/-- Claim C5 (witness): with maximum 2 and two existing entries, a third
append evicts exactly the oldest entry. -/
theorem c5_witness :
    MemWF stateTwo
      ∧ (jgetD (Json.obj [("content", Json.str "c")]) "content" (Json.str "")).truthy = true
      ∧ (_save_memory { baseConfig with max_history_items := 2 }
          (Json.obj [("content", Json.str "c")]) stateTwo).2.conversations.length = 2 := by
  have hwf : MemWF stateTwo := by
    constructor
    · decide
    · decide
  refine ⟨hwf, rfl, ?_⟩
  exact ((c5_retention_fifo { baseConfig with max_history_items := 2 }
      (Json.obj [("content", Json.str "c")]) stateTwo
      (_save_memory { baseConfig with max_history_items := 2 }
        (Json.obj [("content", Json.str "c")]) stateTwo).1
      (_save_memory { baseConfig with max_history_items := 2 }
        (Json.obj [("content", Json.str "c")]) stateTwo).2
      hwf rfl rfl).2.2.2 (by decide)).1

/-- Helper for C9: under the `ActionRequest` request shape (action field
a string or falsy), batch processing never aborts, returns exactly one
result per request in order, places the synthetic missing-action failure
at each falsy position, and at each routable position returns exactly
the `route` outcome under the threaded intermediate state. -/
theorem process_batch_spec (modules : String → Option ModuleExec) :
    ∀ (tcs : List PyDict) (s : SadieState),
    (∀ tc ∈ tcs, actionFieldOk tc) →
    ∃ rs s2, process_tool_calls modules tcs s = .ok (rs, s2)
      ∧ rs.length = tcs.length
      ∧ (∀ (i : Nat) (tc : PyDict), tcs[i]? = some tc → truthyOpt (dictGet tc "action") = false →
          rs[i]? = some [("success", Json.bool false),
            ("error", Json.str "Tool call missing 'action' field")])
      ∧ (∀ (i : Nat) (tc : PyDict) (a : String), tcs[i]? = some tc → dictGet tc "action" = some (Json.str a) →
          Json.truthy (Json.str a) = true →
          ∀ rsi si, process_tool_calls modules (tcs.take i) s = .ok (rsi, si) →
            rs[i]? = some (route modules a ((dictGet tc "params").getD (Json.obj [])) si).1) := by
  intro tcs
  induction tcs with
  | nil =>
    intro s h
    exact ⟨[], s, rfl, rfl, by simp, by simp⟩
  | cons tc rest ih =>
    intro s h
    have hhead := h tc (List.mem_cons_self _ _)
    by_cases hf : truthyOpt (dictGet tc "action") = true
    · rcases hhead with hcontra | ⟨a, ha⟩
      · rw [hcontra] at hf
        exact absurd hf (by simp)
      · obtain ⟨rs, s2, hok, hlen, hmiss, hpos⟩ :=
          ih (route modules a ((dictGet tc "params").getD (Json.obj [])) s).2
            (fun tc2 ht => h tc2 (List.mem_cons_of_mem _ ht))
        have hta : Json.truthy (Json.str a) = true := by
          rw [ha] at hf
          exact hf
        refine ⟨(route modules a ((dictGet tc "params").getD (Json.obj [])) s).1 :: rs,
          s2, ?_, by simp [hlen], ?_, ?_⟩
        · simp only [process_tool_calls, hf, ha, truthyOpt, hta, Bool.not_true,
            Bool.false_eq_true, if_false, hok]
        · intro i tc2 hti hfi
          cases i with
          | zero =>
            simp only [List.getElem?_cons_zero, Option.some.injEq] at hti
            rw [← hti] at hfi
            rw [hfi] at hf
            exact absurd hf (by simp)
          | succ i =>
            simp only [List.getElem?_cons_succ] at hti ⊢
            exact hmiss i tc2 hti hfi
        · intro i tc2 a2 hti hai hta2 rsi si hpi
          cases i with
          | zero =>
            simp only [List.getElem?_cons_zero, Option.some.injEq] at hti
            subst hti
            rw [ha] at hai
            have haa : a = a2 := by
              injection hai with h1
              injection h1
            subst haa
            simp only [List.take_zero, process_tool_calls] at hpi
            injection hpi with hp
            injection hp with hp1 hp2
            subst hp2
            simp
          | succ i =>
            simp only [List.take_succ_cons] at hpi
            simp only [process_tool_calls, hf, ha, truthyOpt, hta, Bool.not_true,
              Bool.false_eq_true, if_false] at hpi
            cases hrec : process_tool_calls modules (rest.take i)
                (route modules a ((dictGet tc "params").getD (Json.obj [])) s).2 with
            | error e => rw [hrec] at hpi; exact absurd hpi (by simp)
            | ok pr =>
              rw [hrec] at hpi
              obtain ⟨rs3, s3⟩ := pr
              injection hpi with hp
              injection hp with hp1 hp2
              subst hp1
              subst hp2
              simp only [List.getElem?_cons_succ] at hti ⊢
              exact hpos i tc2 a2 hti hai hta2 rs3 s3 hrec
    · have hf2 : truthyOpt (dictGet tc "action") = false := by
        cases hb : truthyOpt (dictGet tc "action")
        · rfl
        · exact absurd hb hf
      obtain ⟨rs, s2, hok, hlen, hmiss, hpos⟩ :=
        ih s (fun tc2 ht => h tc2 (List.mem_cons_of_mem _ ht))
      refine ⟨[("success", Json.bool false),
          ("error", Json.str "Tool call missing 'action' field")] :: rs, s2,
        ?_, by simp [hlen], ?_, ?_⟩
      · simp only [process_tool_calls, hf2, Bool.not_false, if_true, hok]
      · intro i tc2 hti hfi
        cases i with
        | zero => simp
        | succ i =>
          simp only [List.getElem?_cons_succ] at hti ⊢
          exact hmiss i tc2 hti hfi
      · intro i tc2 a2 hti hai hta2 rsi si hpi
        cases i with
        | zero =>
          simp only [List.getElem?_cons_zero, Option.some.injEq] at hti
          subst hti
          rw [hai] at hf2
          simp only [truthyOpt] at hf2
          rw [hta2] at hf2
          exact absurd hf2 (by simp)
        | succ i =>
          simp only [List.take_succ_cons] at hpi
          simp only [process_tool_calls, hf2, Bool.not_false, if_true] at hpi
          cases hrec : process_tool_calls modules (rest.take i) s with
          | error e => rw [hrec] at hpi; exact absurd hpi (by simp)
          | ok pr =>
            rw [hrec] at hpi
            obtain ⟨rs3, s3⟩ := pr
            injection hpi with hp
            injection hp with hp1 hp2
            subst hp1
            subst hp2
            simp only [List.getElem?_cons_succ] at hti ⊢
            exact hpos i tc2 a2 hti hai hta2 rs3 s3 hrec

/-- Claim C9: for every list of n tool-call requests (action field a
string or falsy, the `ActionRequest` shape), `process_tool_calls`
returns exactly n results in input order; a request with a missing (or
falsy) action name yields the synthetic failure result at its position
rather than being skipped; and an exception raised by a handler is
converted by `route` into a failure result at that position — carrying
the module and action — without aborting the remaining requests. -/
theorem c9_batch_processing (modules : String → Option ModuleExec)
    (tcs : List PyDict) (s : SadieState)
    (h : ∀ tc ∈ tcs, actionFieldOk tc) :
    (∃ rs s2, process_tool_calls modules tcs s = .ok (rs, s2)
      ∧ rs.length = tcs.length
      ∧ (∀ (i : Nat) (tc : PyDict), tcs[i]? = some tc →
          truthyOpt (dictGet tc "action") = false →
          rs[i]? = some [("success", Json.bool false),
            ("error", Json.str "Tool call missing 'action' field")])
      ∧ (∀ (i : Nat) (tc : PyDict) (a : String), tcs[i]? = some tc →
          dictGet tc "action" = some (Json.str a) →
          Json.truthy (Json.str a) = true →
          ∀ rsi si, process_tool_calls modules (tcs.take i) s = .ok (rsi, si) →
            rs[i]? = some (route modules a
              ((dictGet tc "params").getD (Json.obj [])) si).1))
    ∧ (∀ (action : String) (params : Json) (s1 : SadieState) (mn : String)
        (m : ModuleExec) (e : String) (s1b : SadieState),
        findModuleName action = some mn → modules mn = some m →
        m action params s1 = (Except.error e, s1b) →
        route modules action params s1 =
          ([("success", Json.bool false),
            ("error", Json.str s!"Module execution failed: {e}"),
            ("module", Json.str mn), ("action", Json.str action)], s1b)) := by
  constructor
  · exact process_batch_spec modules tcs s h
  · intro action params s1 mn m e s1b hfind hmod hexec
    simp [route, hfind, hmod, hexec]

/-- Claim C9 (witness): the three-request batch with the second request
missing its action yields three results. -/
theorem c9_witness :
    (∀ tc ∈ tcsEx, actionFieldOk tc)
      ∧ ∃ rs s2, process_tool_calls (sadieModules baseConfig) tcsEx emptyState
            = .ok (rs, s2)
          ∧ rs.length = 3 := by
  have hall : ∀ tc ∈ tcsEx, actionFieldOk tc := by
    intro tc htc
    simp only [tcsEx, List.mem_cons, List.not_mem_nil, or_false] at htc
    rcases htc with h1 | h1 | h1 <;> subst h1
    · exact Or.inr ⟨"memory_set_context", rfl⟩
    · exact Or.inl rfl
    · exact Or.inr ⟨"plan_task", rfl⟩
  obtain ⟨rs, s2, hok, hlen, _, _⟩ :=
    (c9_batch_processing (sadieModules baseConfig) tcsEx emptyState hall).1
  exact ⟨hall, rs, s2, hok, by rw [hlen]; rfl⟩
